import Mathlib

/-!
# Verification of the `ash` command-line game engine

Shallow embedding of the repository `ash-ge` (files `src/ash/parser.py`,
`src/ash/command.py`, `src/ash/game.py`) and proofs about the claims of its
specification.

The Python code delegates pattern matching to the third-party `regex` library
and field validation to `pydantic`.  Those two external collaborators are
modelled here by executable Lean functions reproducing the semantics the code
relies on:

* `Regex` / `Regex.fullmatch` — a backtracking matcher with named capture
  groups.  `fullmatch` succeeds only when the whole input is consumed (the
  semantics of `regex.fullmatch`); capture lists are collected per named
  group in match order (the semantics of `Match.captures`), `Match.group`
  returns the last capture of the group or Python `None` when the group did
  not participate, and `groupdict()` keys are all named groups occurring in
  the pattern whether or not they participated.
* `Schema.model_validate` — pydantic-style validation of a raw-value map
  against declared fields: present raw values are coerced to the declared
  type, absent fields fall back to their default, any failure is reported as
  a validation error.

Everything else is translated statement-by-statement from the Python source.
-/

/-- A character-class atom carries the source text it was written with
(`"\\d"`, `"\\w"`, a literal character, ...) and the predicate deciding
membership. -/
structure CharCls where
  src : String
  test : Char → Bool

/-- Abstract syntax of the regular-expression fragment the engine supports:
enough for the patterns used by the repository (character classes, named
groups `(?P<n>...)`, non-capturing groups `(?:...)`, concatenation,
alternation, `*`, `+`, `?`). -/
inductive Regex where
  | eps : Regex
  | cls (c : CharCls) : Regex
  | grp (name : String) (r : Regex) : Regex
  | ncg (r : Regex) : Regex
  | cat (a b : Regex) : Regex
  | alt (a b : Regex) : Regex
  | star (r : Regex) : Regex
  | plus (r : Regex) : Regex
  | opt (r : Regex) : Regex

/-- The source text of a pattern, reconstructing what was passed to
`regex.compile`. -/
def Regex.source : Regex → String
  | .eps => ""
  | .cls c => c.src
  | .grp name r => "(?P<" ++ name ++ ">" ++ r.source ++ ")"
  | .ncg r => "(?:" ++ r.source ++ ")"
  | .cat a b => a.source ++ b.source
  | .alt a b => a.source ++ "|" ++ b.source
  | .star r => r.source ++ "*"
  | .plus r => r.source ++ "+"
  | .opt r => r.source ++ "?"

/-- Names of all named capture groups of the pattern; these are exactly the
keys of Python's `match.groupdict()` (present there even when the group did
not participate in the match). -/
def Regex.groupNames : Regex → List String
  | .eps => []
  | .cls _ => []
  | .grp name r => name :: r.groupNames
  | .ncg r => r.groupNames
  | .cat a b => a.groupNames ++ b.groupNames
  | .alt a b => a.groupNames ++ b.groupNames
  | .star r => r.groupNames
  | .plus r => r.groupNames
  | .opt r => r.groupNames

/-- A capture log: `(group name, captured text)` in order of capture
completion along the successful match path. -/
abbrev Caps := List (String × String)

/-- Measure used for termination of the matcher: `plus` is heavier than the
`star` it steps to. -/
def Regex.msize : Regex → Nat
  | .eps => 0
  | .cls _ => 0
  | .grp _ r => r.msize + 1
  | .ncg r => r.msize + 1
  | .cat a b => a.msize + b.msize + 1
  | .alt a b => a.msize + b.msize + 1
  | .star r => r.msize + 1
  | .plus r => r.msize + 2
  | .opt r => r.msize + 1

/-- Backtracking matcher.  `mmatch fuel r s caps` returns, in backtracking
priority order (greedy first, left alternative first), every way `r` can
match a prefix of `s`, as the pair of the remaining suffix and the extended
capture log.

`fuel` is structural recursion depth, decremented at every call so that the
definition reduces by iota; it never runs out when initialised to
`(length s + 1) * (msize r + 1) + 1`: along every chain of recursive calls
the pair `(length of the remaining string, msize of the regex)` decreases
lexicographically — every case recurses into a structurally smaller regex on
a never-longer string, except the `star` self-call, whose iteration is
filtered to have consumed at least one character (Python stops repeating a
quantified group once it matches empty, so requiring progress is faithful). -/
def mmatch : Nat → Regex → List Char → Caps → List (List Char × Caps)
  | 0, _, _, _ => []
  | fuel + 1, r, s, caps =>
    match r with
    | .eps => [(s, caps)]
    | .cls c =>
      match s with
      | [] => []
      | ch :: rest => if c.test ch then [(rest, caps)] else []
    | .grp name r1 =>
      (mmatch fuel r1 s caps).map fun p =>
        (p.1, p.2 ++ [(name, String.mk (s.take (s.length - p.1.length)))])
    | .ncg r1 => mmatch fuel r1 s caps
    | .cat a b =>
      (mmatch fuel a s caps).flatMap fun p => mmatch fuel b p.1 p.2
    | .alt a b => mmatch fuel a s caps ++ mmatch fuel b s caps
    | .star r1 =>
      ((mmatch fuel r1 s caps).filter fun p => p.1.length < s.length).flatMap
        (fun p => mmatch fuel (.star r1) p.1 p.2) ++ [(s, caps)]
    | .plus r1 =>
      (mmatch fuel r1 s caps).flatMap fun p => mmatch fuel (.star r1) p.1 p.2
    | .opt r1 => mmatch fuel r1 s caps ++ [(s, caps)]

/-- Result of a successful match: the capture log of the winning path. -/
structure RMatch where
  caps : Caps
deriving Repr, DecidableEq

/-- `match.captures(name)` of the `regex` library: every capture of the named
group, in match order. -/
def RMatch.captures (m : RMatch) (name : String) : List String :=
  (m.caps.filter fun p => p.1 == name).map Prod.snd

/-- `match.group(name)`: the most recent capture of the named group, or
`none` (Python `None`) when the group did not participate in the match. -/
def RMatch.group (m : RMatch) (name : String) : Option String :=
  ((m.caps.filter fun p => p.1 == name).map Prod.snd).getLast?

/-- `regex.fullmatch`: the highest-priority way of matching that consumes the
whole input, or `none`.  Requiring the remaining suffix to be empty is what
makes this a full-line match rather than a prefix match. -/
def Regex.fullmatch (r : Regex) (s : String) : Option RMatch :=
  match (mmatch ((s.length + 1) * (r.msize + 1) + 1) r s.data []).filter
      (fun p => p.1.isEmpty) with
  | [] => none
  | p :: _ => some ⟨p.2⟩

/-! ## Model of the pydantic schemas the engine is instantiated with -/

/-- Python type annotations occurring in command schemas: `str`, `int`, bare
`list`, `list[T]` (a `types.GenericAlias` with origin `list`), and
`typing.Optional[T]`. -/
inductive PyType where
  | pstr : PyType
  | pint : PyType
  | plistBare : PyType
  | plistOf (elem : PyType) : PyType
  | popt (elem : PyType) : PyType
deriving Repr, DecidableEq

/-- A raw value as produced by the parser's dict comprehension: Python
`None` (a named group that did not participate), a captured substring, or the
list of captures of a repeated group. -/
inductive RawVal where
  | pynone : RawVal
  | str (s : String) : RawVal
  | list (l : List String) : RawVal
deriving Repr, DecidableEq

/-- A validated (coerced) field value. -/
inductive PyVal where
  | vnone : PyVal
  | vstr (s : String) : PyVal
  | vint (n : Int) : PyVal
  | vlist (l : List PyVal) : PyVal
deriving Repr

/-- A declared schema field: its type annotation, optional default, and
optional human-readable description (pydantic `FieldInfo`). -/
structure FieldInfo where
  annot : PyType
  dflt : Option PyVal := none
  description : Option String := none

/-- A pydantic model class: its docstring and its `model_fields` in
declaration order (field names are distinct in a Python class). -/
structure Schema where
  doc : Option String := none
  model_fields : List (String × FieldInfo)

/-- A single field's validation failure. -/
structure ValidationError where
  loc : String
  msg : String
deriving Repr, DecidableEq

/-- Parse a digit string into a number, `none` on any non-digit. -/
def natOfDigits : List Char → Nat → Option Nat
  | [], acc => some acc
  | c :: rest, acc =>
    if c.isDigit then natOfDigits rest (acc * 10 + (c.toNat - 48)) else none

/-- Python `int(s)` on a captured substring: an optional sign followed by at
least one digit. -/
def parseIntStr (s : String) : Option Int :=
  match s.data with
  | [] => none
  | '-' :: rest =>
    if rest.isEmpty then none else (natOfDigits rest 0).map fun n => -(n : Int)
  | '+' :: rest =>
    if rest.isEmpty then none else (natOfDigits rest 0).map fun n => (n : Int)
  | l => (natOfDigits l 0).map fun n => (n : Int)

/-- pydantic coercion of a captured substring to a declared type: a string
is a valid `str` as itself and a valid `int` when it parses as an integer;
a plain string is not a valid list; `Optional[T]` accepts whatever `T`
accepts. -/
def coerceStr : PyType → String → Except String PyVal
  | .pstr, s => .ok (.vstr s)
  | .pint, s =>
    match parseIntStr s with
    | some n => .ok (.vint n)
    | none => .error "Input should be a valid integer"
  | .plistBare, _ => .error "Input should be a valid list"
  | .plistOf _, _ => .error "Input should be a valid list"
  | .popt elem, s => coerceStr elem s

/-- Element-wise coercion of the captured strings of a list field, in order,
stopping at the first failure. -/
def coerceElems (elem : PyType) : List String → Except String (List PyVal)
  | [] => .ok []
  | s :: rest =>
    match coerceStr elem s with
    | .error e => .error e
    | .ok v =>
      match coerceElems elem rest with
      | .error e => .error e
      | .ok vs => .ok (v :: vs)

/-- pydantic coercion of one raw value to a declared type.  Strings coerce
via `coerceStr`; `None` is only valid for `Optional` types; a list raw value
coerces element-wise to `list[T]` (order preserved, first failure reported)
and as-is to bare `list`. -/
def coerce : PyType → RawVal → Except String PyVal
  | t, .str s => coerceStr t s
  | .pstr, _ => .error "Input should be a valid string"
  | .pint, _ => .error "Input should be a valid integer"
  | .plistBare, .list l => .ok (.vlist (l.map .vstr))
  | .plistBare, .pynone => .error "Input should be a valid list"
  | .plistOf elem, .list l =>
    match coerceElems elem l with
    | .ok vs => .ok (.vlist vs)
    | .error e => .error e
  | .plistOf _, .pynone => .error "Input should be a valid list"
  | .popt _, .pynone => .ok .vnone
  | .popt elem, .list l => coerce elem (.list l)

/-- Validation of one declared field against the raw-value map: a present
raw value is coerced to the declared type, an absent field falls back to its
default, and a missing required field is an error. -/
def validateField (name : String) (fld : FieldInfo) (params : List (String × RawVal)) :
    Except ValidationError PyVal :=
  match params.lookup name with
  | some rv =>
    match coerce fld.annot rv with
    | .ok v => .ok v
    | .error msg => .error ⟨name, msg⟩
  | none =>
    match fld.dflt with
    | some v => .ok v
    | none => .error ⟨name, "Field required"⟩

/-- Validation of a list of declared fields, in declaration order, stopping
at the first failing field. -/
def validateFields (params : List (String × RawVal)) :
    List (String × FieldInfo) → Except ValidationError (List (String × PyVal))
  | [] => .ok []
  | p :: rest =>
    match validateField p.1 p.2 params with
    | .error e => .error e
    | .ok v =>
      match validateFields params rest with
      | .error e => .error e
      | .ok vs => .ok ((p.1, v) :: vs)

/-- `schema.model_validate(params)`: validate every declared field, in
declaration order, producing the typed record, or fail with a validation
error naming the offending field. -/
def Schema.model_validate (schema : Schema) (params : List (String × RawVal)) :
    Except ValidationError (List (String × PyVal)) :=
  validateFields params schema.model_fields

/-! ## `src/ash/parser.py` -/

/-- `CommandParseError`: message (Python `str(e)`) plus the exception chained
with `raise ... from e` (Python `__cause__`). -/
structure CommandParseError where
  message : String
  cause : Option ValidationError := none
deriving Repr, DecidableEq

/-- `RegexCommandParser`: stores the source pattern and the compiled pattern
(`self.pattern` / `self.cpattern`). -/
structure RegexCommandParser where
  pattern : String
  cpattern : Regex

/-- `RegexCommandParser.__init__(pattern)`: keeps the pattern text and its
compiled form; here the compiled form is primary and the text is recovered
by printing. -/
def RegexCommandParser.compile (r : Regex) : RegexCommandParser :=
  ⟨r.source, r⟩

/-- `RegexCommandParser.type_is_list`: true exactly for `list` and
`list[...]` (`t is list or (isinstance(t, types.GenericAlias) and
t.__origin__ is list)`). -/
def type_is_list : PyType → Bool
  | .plistBare => true
  | .plistOf _ => true
  | _ => false

/-- The raw value the dict comprehension stores for one declared field:
`match.captures(name)` when the declared type is a list type, otherwise
`match.group(name)` (which is Python `None` for a non-participating
group). -/
def rawOf (m : RMatch) (fld : FieldInfo) (name : String) : RawVal :=
  if type_is_list fld.annot then .list (m.captures name)
  else
    match m.group name with
    | some s => .str s
    | none => .pynone

/-- The dict comprehension of `RegexCommandParser.parse`: one entry per
declared field whose name is a key of `match.groupdict()`, i.e. per field
named by some group of the pattern. -/
def rawParams (r : Regex) (m : RMatch) (schema : Schema) : List (String × RawVal) :=
  schema.model_fields.filterMap fun p =>
    if p.1 ∈ r.groupNames then some (p.1, rawOf m p.2 p.1) else none

/-- `RegexCommandParser.parse(schema, command)`: full-line match, then the
dict comprehension, then `schema.model_validate`; a failed match and a failed
validation each raise `CommandParseError` (the latter chaining the pydantic
error as its cause). -/
def RegexCommandParser.parse (p : RegexCommandParser) (schema : Schema)
    (command : String) : Except CommandParseError (List (String × PyVal)) :=
  match p.cpattern.fullmatch command with
  | none => .error ⟨"Command does not match pattern: " ++ p.pattern, none⟩
  | some m =>
    match schema.model_validate (rawParams p.cpattern m schema) with
    | .ok rec => .ok rec
    | .error e => .error ⟨"Parameters failed to validate.", some e⟩

/-- `RegexCommandParser.help_message`. -/
def RegexCommandParser.help_message (p : RegexCommandParser) : String :=
  "Pattern: " ++ p.pattern

/-! ## `src/ash/command.py` -/

/-- A bound action: a Python coroutine function together with its docstring
(`__doc__`, which is `None` when the function has no docstring).  An action
receives the shared data object and the validated parameters and mutates the
data; in the embedding it returns the updated data. -/
structure ActionFn (D : Type) where
  doc : Option String := none
  run : D → List (String × PyVal) → D

/-- `Command`: schema, parser, and the optional action slot (initialised to
`None` by `__init__` and set by `register_action`). -/
structure Command (D : Type) where
  schema : Schema
  parser : RegexCommandParser
  action : Option (ActionFn D) := none

/-- `Command.register_action` decorator: stores the function in the action
slot. -/
def Command.register_action {D : Type} (c : Command D) (a : ActionFn D) : Command D :=
  { c with action := some a }

/-- `Command.parse`: delegates to the bound parser with the bound schema. -/
def Command.parse {D : Type} (c : Command D) (command : String) :
    Except CommandParseError (List (String × PyVal)) :=
  c.parser.parse c.schema command

/-- `Command.execute(data, params)`: awaits the action if one is bound,
otherwise does nothing. -/
def Command.execute {D : Type} (c : Command D) (data : D)
    (params : List (String × PyVal)) : D :=
  match c.action with
  | some a => a.run data params
  | none => data

/-- `Command.help_message`.  `command_doc` is `self.action.__doc__` when an
action is bound — which is Python `None`, rendered by the f-string as the
text `"None"`, when the bound action has no docstring — and the placeholder
only when no action is bound at all. -/
def Command.help_message {D : Type} (c : Command D) : String :=
  let command_doc :=
    match c.action with
    | some a =>
      match a.doc with
      | some d => d
      | none => "None"
    | none => "No description available."
  let param_docs := c.schema.model_fields.map fun p =>
    (p.1, match p.2.description with
          | some d => d
          | none => "No description available.")
  let t := "    "
  let usage := c.parser.help_message
  command_doc ++ "\n\nUsage:\n" ++ t ++ usage ++ "\n\nParameters:" ++
    String.join (param_docs.map fun p => "\n" ++ t ++ p.1 ++ ": " ++ p.2)

/-! ## `src/ash/game.py` -/

/-- `GameConfig`: background delay and the help flag.  The delay is a float
in Python; it takes no part in any claim and is modelled opaquely. -/
structure GameConfig where
  background_delay : Float := 1.0
  show_help : Bool := true

/-- The `tasks` dictionary: at most one function per key of the literal type
`task_t = Literal["pre_command", "post_command", "background"]`.  A task
receives the shared data and mutates it; in the embedding it returns the
updated data. -/
structure Tasks (D : Type) where
  pre_command : Option (D → D) := none
  post_command : Option (D → D) := none
  background : Option (D → D) := none

/-- `Game`: configuration, the name-keyed command registry (a `dict`, i.e.
an insertion-ordered association list with distinct keys), and the task
hooks. -/
structure Game (D : Type) where
  config : GameConfig
  commands : List (String × Command D) := []
  tasks : Tasks D := {}

/-- Registration-time failures.  The Python code raises `ValueError` with
two distinct messages; the spec names the two failure modes
`ReservedNameError` and `DuplicateCommandError`, modelled as the two
constructors. -/
inductive RegisterError where
  | reservedName (msg : String) : RegisterError
  | duplicateCommand (msg : String) : RegisterError
deriving Repr, DecidableEq

/-- `Game.register_command(name)` applied to a command: the reserved-name
check, then the duplicate check (each raising before any mutation), then the
decorator's insertion `self.commands[name] = command` (a fresh key appended
to the dict). -/
def Game.register_command {D : Type} (g : Game D) (name : String)
    (cmd : Command D) : Except RegisterError (Game D) :=
  if g.config.show_help && name == "help" then
    .error (.reservedName "Cannot register a command named \"help\" when show_help is True.")
  else if (g.commands.lookup name).isSome then
    .error (.duplicateCommand ("Command with name \"" ++ name ++ "\" already registered."))
  else
    .ok { g with commands := g.commands ++ [(name, cmd)] }

/-- The observable outcome of a registration attempt: the game object after
the call together with the raised error, if any.  In Python the `ValueError`
is raised inside `register_command` before the decorator that performs the
insertion even exists, so on failure the game object is the unchanged
receiver. -/
def Game.try_register {D : Type} (g : Game D) (name : String) (cmd : Command D) :
    Game D × Option RegisterError :=
  match g.register_command name cmd with
  | .ok g2 => (g2, none)
  | .error e => (g, some e)

/-- `Game.register_task` decorator: `self.tasks[task_type] = task`. -/
def Game.register_task {D : Type} (g : Game D) (kind : String) (task : D → D) :
    Game D :=
  if kind == "pre_command" then { g with tasks := { g.tasks with pre_command := some task } }
  else if kind == "post_command" then { g with tasks := { g.tasks with post_command := some task } }
  else if kind == "background" then { g with tasks := { g.tasks with background := some task } }
  else g

/-- `Game.help_message`: one line per registered command, in registration
order, from the schema docstring. -/
def Game.help_message {D : Type} (g : Game D) : String :=
  let command_docs := g.commands.map fun p =>
    (p.1, match p.2.schema.doc with
          | some d => d
          | none => "No description available.")
  let t := "    "
  "Commands:" ++ String.join (command_docs.map fun p => "\n" ++ t ++ p.1 ++ ": " ++ p.2)

/-- Python whitespace for `str.split`. -/
def isPySpace (c : Char) : Bool :=
  c == ' ' || c == '\t' || c == '\n' || c == '\r' || c == '\x0b' || c == '\x0c'

/-- `line.split(maxsplit=1)`: strip leading whitespace; an all-whitespace
line gives `[]`; otherwise the first whitespace-free token, and the rest of
the line after the following whitespace run when non-empty. -/
def splitMax1 (s : String) : List String :=
  let l := s.data.dropWhile isPySpace
  match l with
  | [] => []
  | _ =>
    let tok := l.takeWhile fun c => !isPySpace c
    let rest := (l.dropWhile fun c => !isPySpace c).dropWhile isPySpace
    match rest with
    | [] => [String.mk tok]
    | _ => [String.mk tok, String.mk rest]

/-- Observable events of one iteration of the user loop: hook invocations,
the action run inside `Command.execute`, and text printed to the console. -/
inductive Ev where
  | preHook : Ev
  | actionRun : Ev
  | postHook : Ev
  | printed (msg : String) : Ev
deriving Repr, DecidableEq

/-- One iteration of `Game.user_loop` on one input line: the updated shared
data and the ordered list of observable events.  Mirrors the loop body:
split the line; ignore an empty split; the help branch; else look the token
up in the registry; parse the remainder (or `""`); on `CommandParseError`
print it; on success run the `pre_command` hook, then `Command.execute`,
then the `post_command` hook, each to completion before the next starts. -/
def Game.user_loop_iter {D : Type} (g : Game D) (data : D) (line : String) :
    D × List Ev :=
  match splitMax1 line with
  | [] => (data, [])
  | tok :: rest =>
    if tok == "help" && g.config.show_help then
      match rest with
      | arg :: _ =>
        match g.commands.lookup arg with
        | some c => (data, [.printed c.help_message])
        | none => (data, [.printed ("Command \"" ++ arg ++ "\" not found.")])
      | [] => (data, [.printed g.help_message])
    else
      match g.commands.lookup tok with
      | some command =>
        match command.parse (rest.headD "") with
        | .error e => (data, [.printed e.message])
        | .ok params =>
          let s1 :=
            match g.tasks.pre_command with
            | some f => (f data, [Ev.preHook])
            | none => (data, ([] : List Ev))
          let s2 := (command.execute s1.1 params,
            s1.2 ++ if command.action.isSome then [Ev.actionRun] else [])
          match g.tasks.post_command with
          | some f => (f s2.1, s2.2 ++ [Ev.postHook])
          | none => s2
      | none => (data, [.printed ("Command \"" ++ tok ++ "\" not found.")])

/-- The user loop run over a finite prefix of the input stream: iterations
are sequenced because the `while True` loop continues after every handled
line (a caught `CommandParseError` does not leave the loop). -/
def Game.user_loop {D : Type} (g : Game D) (data : D) : List String → D × List Ev
  | [] => (data, [])
  | line :: lines =>
    let s1 := g.user_loop_iter data line
    let s2 := g.user_loop s1.1 lines
    (s2.1, s1.2 ++ s2.2)

/-! ## Concrete instances

The example game of the repository (`examples/example_game.py`), used to
instantiate the theorems below on closed inputs. -/

/-- The `\d` character class. -/
def digitC : CharCls := ⟨"\\d", Char.isDigit⟩

/-- The `\w` character class. -/
def wordC : CharCls := ⟨"\\w", fun c => c.isAlphanum || c == '_'⟩

/-- The `[\d-]` character class. -/
def dashDigitC : CharCls := ⟨"[\\d-]", fun c => c.isDigit || c == '-'⟩

/-- The `\s` character class. -/
def spaceC : CharCls := ⟨"\\s", isPySpace⟩

/-- The pattern `(?P<value>[\d-]+)` of the example `add` command. -/
def pA : Regex := .grp "value" (.plus (.cls dashDigitC))

/-- Parser of the `add` command. -/
def parserA : RegexCommandParser := .compile pA

/-- Schema of the `add` command: one described `int` field `value`. -/
def schemaA : Schema :=
  { doc := some "A command to add a value to the counter.",
    model_fields :=
      [("value", { annot := .pint, description := some "The value to add to the counter." })] }

/-- Action of the `add` command (`data.counter += params.value`), on an `Int`
counter state. -/
def actA : ActionFn Int :=
  { doc := some "Adds the value to the counter.",
    run := fun d params =>
      match params.lookup "value" with
      | some (.vint n) => d + n
      | _ => d }

/-- The `add` command. -/
def cmdA : Command Int := { schema := schemaA, parser := parserA, action := some actA }

/-- The pattern `(?:(?P<values>[\d-]+)\s?)+` of the example `add-multiple`
command. -/
def pB : Regex := .plus (.ncg (.cat (.grp "values" (.plus (.cls dashDigitC))) (.opt (.cls spaceC))))

/-- Parser of the `add-multiple` command. -/
def parserB : RegexCommandParser := .compile pB

/-- Schema of the `add-multiple` command: one `list[int]` field `values`. -/
def schemaB : Schema :=
  { doc := some "A command to add multiple values to the counter.",
    model_fields := [("values", { annot := .plistOf .pint })] }

/-- A pattern with an optional named group: `(?P<a>\d+)(?: (?P<b>\w+))?`. -/
def p7 : Regex :=
  .cat (.grp "a" (.plus (.cls digitC)))
    (.opt (.ncg (.cat (.cls ⟨" ", fun c => c == ' '⟩) (.grp "b" (.plus (.cls wordC))))))

/-- Parser over `p7`. -/
def parser7 : RegexCommandParser := .compile p7

/-- Schema with a required `int` field `a` and a defaulted `str` field `b`. -/
def schema7 : Schema :=
  { model_fields :=
      [("a", { annot := .pint }),
       ("b", { annot := .pstr, dflt := some (.vstr "dflt") })] }

/-- A command whose bound action has no docstring (`__doc__ is None`). -/
def cmdNoDocA : Command Int :=
  { schema := schemaA, parser := parserA, action := some { run := fun d _ => d } }

/-- An empty game over an `Int` counter state, with the default
configuration (`show_help = True`). -/
def g0 : Game Int := { config := {} }

/-- The game with the `add` command registered. -/
def gA : Game Int := { config := {}, commands := [("add", cmdA)] }

/-- `gA` with a `pre_command` hook adding `100` and a `post_command` hook
multiplying by `10`, so that the three stages of one command execution are
distinguishable in the final state. -/
def gAH : Game Int :=
  { config := {},
    commands := [("add", cmdA)],
    tasks := { pre_command := some (fun d => d + 100), post_command := some (fun d => d * 10) } }

/-- The fixed tail of `Command.help_message`: the usage section built from
the parser's help text and the parameter section built from the per-field
descriptions, used to state what follows the action-description head. -/
def helpTail {D : Type} (c : Command D) : String :=
  "\n\nUsage:\n" ++ "    " ++ c.parser.help_message ++ "\n\nParameters:" ++
    String.join (c.schema.model_fields.map fun p =>
      "\n" ++ "    " ++ p.1 ++ ": " ++
        (match p.2.description with
         | some d => d
         | none => "No description available."))

/-! ## Helper lemmas -/

/-- Lookup distributes over append: the first list wins. -/
theorem lookup_append {β : Type} (a : String) (l1 l2 : List (String × β)) :
    (l1 ++ l2).lookup a = ((l1.lookup a).orElse fun _ => l2.lookup a) := by
  induction l1 with
  | nil => simp [List.lookup]
  | cons hd tl ih =>
    by_cases h : a == hd.1
    · simp [List.lookup, h, Option.orElse]
    · rw [Bool.not_eq_true] at h
      simp only [List.cons_append, List.lookup, h]
      exact ih

/-- When validation of a field list succeeds, every declared field is bound
in the resulting record (names being distinct) to its own successful
validation result. -/
theorem validateFields_ok_lookup (fields : List (String × FieldInfo))
    (params : List (String × RawVal)) (rec : List (String × PyVal))
    (hnd : (fields.map Prod.fst).Nodup)
    (hok : validateFields params fields = .ok rec) :
    ∀ name fld, (name, fld) ∈ fields →
      ∃ v, rec.lookup name = some v ∧ validateField name fld params = .ok v := by
  induction fields generalizing rec with
  | nil => intro name fld hmem; simp at hmem
  | cons hd tl ih =>
    obtain ⟨n0, f0⟩ := hd
    intro name fld hmem
    rw [validateFields] at hok
    cases h1 : validateField n0 f0 params with
    | error e => rw [h1] at hok; exact absurd hok (by simp)
    | ok v =>
      rw [h1] at hok
      cases h2 : validateFields params tl with
      | error e => rw [h2] at hok; exact absurd hok (by simp)
      | ok vs =>
        rw [h2] at hok
        simp only [Except.ok.injEq] at hok
        subst hok
        simp only [List.map_cons, List.nodup_cons] at hnd
        rcases List.mem_cons.mp hmem with heq | htl
        · injection heq with e1 e2
          subst e1; subst e2
          exact ⟨v, by simp [List.lookup], h1⟩
        · have hne : name ≠ n0 := by
            intro hcon
            exact hnd.1 (hcon ▸ List.mem_map_of_mem Prod.fst htl)
          obtain ⟨v2, hv2, hval⟩ := ih vs hnd.2 h2 name fld htl
          refine ⟨v2, ?_, hval⟩
          simp [List.lookup, (by simp [hne] : (name == n0) = false), hv2]

/-- A successful element-wise coercion relates inputs and outputs pointwise,
in order. -/
theorem coerceElems_ok_forall2 (elem : PyType) :
    ∀ (l : List String) (vs : List PyVal), coerceElems elem l = .ok vs →
      List.Forall₂ (fun s v => coerce elem (.str s) = .ok v) l vs := by
  intro l
  induction l with
  | nil =>
    intro vs h
    rw [coerceElems] at h
    simp only [Except.ok.injEq] at h
    subst h
    exact .nil
  | cons s rest ih =>
    intro vs h
    rw [coerceElems] at h
    cases h1 : coerceStr elem s with
    | error e => rw [h1] at h; exact absurd h (by simp)
    | ok v =>
      rw [h1] at h
      cases h2 : coerceElems elem rest with
      | error e => rw [h2] at h; exact absurd h (by simp)
      | ok ws =>
        rw [h2] at h
        simp only [Except.ok.injEq] at h
        subst h
        exact .cons ((by rw [coerce]; exact h1) : coerce elem (.str s) = .ok v) (ih ws h2)

/-- Every key of the parser's raw-parameter map is a group name of the
pattern. -/
theorem rawParams_keys_sub (r : Regex) (m : RMatch) (schema : Schema) :
    ∀ q ∈ rawParams r m schema, q.1 ∈ r.groupNames := by
  intro q hq
  obtain ⟨p, _, hp⟩ := List.mem_filterMap.mp hq
  by_cases hg : p.1 ∈ r.groupNames
  · simp only [hg, if_pos] at hp
    cases hp
    exact hg
  · simp [hg] at hp

/-- A key matched by no pair of an association list looks up to `none`. -/
theorem lookup_eq_none_of_keys {β : Type} (a : String) :
    ∀ (l : List (String × β)), (∀ q ∈ l, q.1 ≠ a) → l.lookup a = none := by
  intro l
  induction l with
  | nil => intro _; rfl
  | cons hd tl ih =>
    intro h
    have hne : a ≠ hd.1 := fun hc => h hd (List.mem_cons_self hd tl) hc.symm
    rw [List.lookup]
    simp only [(by simp [hne] : (a == hd.1) = false)]
    exact ih fun q hq => h q (List.mem_cons_of_mem hd hq)

/-- A name that is no group of the pattern is absent from the raw-parameter
map. -/
theorem rawParams_lookup_none (r : Regex) (m : RMatch) (schema : Schema)
    (name : String) (hng : name ∉ r.groupNames) :
    (rawParams r m schema).lookup name = none :=
  lookup_eq_none_of_keys name _ fun q hq hc =>
    hng (hc ▸ rawParams_keys_sub r m schema q hq)

/-- A declared field named by a group of the pattern appears in the
raw-parameter map with its `rawOf` value. -/
theorem rawParams_mem (r : Regex) (m : RMatch) (schema : Schema)
    (name : String) (fld : FieldInfo)
    (hmem : (name, fld) ∈ schema.model_fields)
    (hg : name ∈ r.groupNames) :
    (name, rawOf m fld name) ∈ rawParams r m schema := by
  refine List.mem_filterMap.mpr ⟨(name, fld), hmem, ?_⟩
  simp [hg]

/-- With distinct declared field names, looking a declared group-named field
up in the raw-parameter map yields exactly its `rawOf` value. -/
theorem rawParams_lookup (r : Regex) (m : RMatch) (schema : Schema)
    (name : String) (fld : FieldInfo)
    (hnd : (schema.model_fields.map Prod.fst).Nodup)
    (hmem : (name, fld) ∈ schema.model_fields)
    (hg : name ∈ r.groupNames) :
    (rawParams r m schema).lookup name = some (rawOf m fld name) := by
  unfold rawParams
  revert hnd hmem
  generalize schema.model_fields = fields
  induction fields with
  | nil => intro _ hmem; simp at hmem
  | cons hd tl ih =>
    obtain ⟨n0, f0⟩ := hd
    intro hnd hmem
    simp only [List.map_cons, List.nodup_cons] at hnd
    rcases List.mem_cons.mp hmem with heq | htl
    · injection heq with e1 e2
      subst e1; subst e2
      simp only [List.filterMap_cons, hg, if_pos]
      simp [List.lookup]
    · have hne : name ≠ n0 := by
        intro hcon
        exact hnd.1 (hcon ▸ List.mem_map_of_mem Prod.fst htl)
      by_cases hg0 : n0 ∈ r.groupNames
      · simp only [List.filterMap_cons, hg0, if_pos]
        rw [List.lookup]
        simp only [(by simp [hne] : (name == n0) = false)]
        exact ih hnd.2 htl
      · simp only [List.filterMap_cons, hg0, if_neg]
        exact ih hnd.2 htl

/-! ## Claims -/

/-- **C1.**  For every pattern and line, `RegexCommandParser.parse` returns a
record exactly when the line fully matches the pattern (full-line semantics
are built into `Regex.fullmatch`, which only accepts an empty remaining
suffix) and the captured parameters validate; when the match fails it raises
`CommandParseError` whose message carries the original pattern; when the
match succeeds but validation fails it raises a single `CommandParseError`
with message `"Parameters failed to validate."` chaining the underlying
validation failure as its cause. -/
theorem c1_parse_fullmatch_and_errors (p : RegexCommandParser) (schema : Schema)
    (line : String) :
    ((∃ rec, p.parse schema line = .ok rec) ↔
      (∃ m, p.cpattern.fullmatch line = some m ∧
        ∃ rec, schema.model_validate (rawParams p.cpattern m schema) = .ok rec))
    ∧ (p.cpattern.fullmatch line = none →
        p.parse schema line =
          .error ⟨"Command does not match pattern: " ++ p.pattern, none⟩)
    ∧ (∀ m e, p.cpattern.fullmatch line = some m →
        schema.model_validate (rawParams p.cpattern m schema) = .error e →
        p.parse schema line = .error ⟨"Parameters failed to validate.", some e⟩) := by
  refine ⟨⟨?_, ?_⟩, ?_, ?_⟩
  · rintro ⟨rec, hok⟩
    cases hm : p.cpattern.fullmatch line with
    | none =>
      simp only [RegexCommandParser.parse, hm] at hok
      exact absurd hok (by simp)
    | some m =>
      simp only [RegexCommandParser.parse, hm] at hok
      cases hv : schema.model_validate (rawParams p.cpattern m schema) with
      | error e =>
        simp only [hv] at hok
        exact absurd hok (by simp)
      | ok rec2 => exact ⟨m, rfl, rec2, hv⟩
  · rintro ⟨m, hm, rec, hv⟩
    exact ⟨rec, by simp only [RegexCommandParser.parse, hm, hv]⟩
  · intro hm
    simp only [RegexCommandParser.parse, hm]
  · intro m e hm hv
    simp only [RegexCommandParser.parse, hm, hv]

/-- Witness for **C1** at closed inputs: the non-matching line `"abc"`
against the `add` pattern, and the matching-but-invalid line `"5"` against
the optional-group pattern. -/
theorem c1_witness :
    parserA.parse schemaA "abc" =
      .error ⟨"Command does not match pattern: " ++ parserA.pattern, none⟩ ∧
    parser7.parse schema7 "5" =
      .error ⟨"Parameters failed to validate.",
        some ⟨"b", "Input should be a valid string"⟩⟩ :=
  ⟨(c1_parse_fullmatch_and_errors parserA schemaA "abc").2.1 rfl,
   (c1_parse_fullmatch_and_errors parser7 schema7 "5").2.2
     ⟨[("a", "5")]⟩ ⟨"b", "Input should be a valid string"⟩ rfl rfl⟩

/-- **C2.**  For every schema and line that fully matches, `parse` binds, in
the validated record, each declared field named by a group of the pattern to
the coercion of its raw capture: the ordered list of all captures of the
group, coerced element-wise to the element type, when the declared type is a
list type; the captured substring coerced to the declared type otherwise
(`rawOf` is `match.captures(name)` or `match.group(name)` by
`type_is_list`). -/
theorem c2_parse_field_values (p : RegexCommandParser) (schema : Schema)
    (line : String) (m : RMatch) (rec : List (String × PyVal))
    (name : String) (fld : FieldInfo)
    (hnd : (schema.model_fields.map Prod.fst).Nodup)
    (hm : p.cpattern.fullmatch line = some m)
    (hok : p.parse schema line = .ok rec)
    (hmem : (name, fld) ∈ schema.model_fields)
    (hg : name ∈ p.cpattern.groupNames) :
    ∃ v, rec.lookup name = some v ∧
      coerce fld.annot (rawOf m fld name) = .ok v ∧
      ∀ elem, fld.annot = .plistOf elem →
        ∃ vs, v = .vlist vs ∧
          List.Forall₂ (fun cap w => coerce elem (.str cap) = .ok w)
            (m.captures name) vs := by
  simp only [RegexCommandParser.parse, hm] at hok
  cases hv : schema.model_validate (rawParams p.cpattern m schema) with
  | error e =>
    simp only [hv] at hok
    exact absurd hok (by simp)
  | ok rec2 =>
    simp only [hv] at hok
    simp only [Except.ok.injEq] at hok
    subst hok
    obtain ⟨v, hlook, hval⟩ :=
      validateFields_ok_lookup schema.model_fields (rawParams p.cpattern m schema)
        rec2 hnd hv name fld hmem
    rw [validateField, rawParams_lookup p.cpattern m schema name fld hnd hmem hg] at hval
    cases hc : coerce fld.annot (rawOf m fld name) with
    | error e =>
      simp only [hc] at hval
      exact absurd hval (by simp)
    | ok w =>
      simp only [hc, Except.ok.injEq] at hval
      subst hval
      refine ⟨w, hlook, rfl, ?_⟩
      intro elem helem
      rw [helem, rawOf, helem] at hc
      simp only [type_is_list, if_true] at hc
      rw [coerce] at hc
      cases hce : coerceElems elem (m.captures name) with
      | error e =>
        simp only [hce] at hc
        exact absurd hc (by simp)
      | ok vs =>
        simp only [hce, Except.ok.injEq] at hc
        exact ⟨vs, hc.symm, coerceElems_ok_forall2 elem (m.captures name) vs hce⟩

/-- Witness for **C2** at a closed input: the `add-multiple` command on
`"1 2 3"` (list field) and the `add` command on `"5"` (singular field). -/
theorem c2_witness :
    (∃ v, ([("values", PyVal.vlist [.vint 1, .vint 2, .vint 3])] :
        List (String × PyVal)).lookup "values" = some v ∧
      coerce (.plistOf .pint)
          (rawOf ⟨[("values", "1"), ("values", "2"), ("values", "3")]⟩
            { annot := .plistOf .pint } "values") = .ok v ∧
      ∀ elem, PyType.plistOf PyType.pint = .plistOf elem →
        ∃ vs, v = .vlist vs ∧
          List.Forall₂ (fun cap w => coerce elem (.str cap) = .ok w)
            (RMatch.captures ⟨[("values", "1"), ("values", "2"), ("values", "3")]⟩
              "values") vs) :=
  c2_parse_field_values parserB schemaB "1 2 3"
    ⟨[("values", "1"), ("values", "2"), ("values", "3")]⟩
    [("values", PyVal.vlist [.vint 1, .vint 2, .vint 3])]
    "values" { annot := .plistOf .pint }
    (by decide) rfl rfl (List.mem_singleton.mpr rfl) (by decide)

/-- **C3.**  Under the registry invariant that `"help"` is never registered
while help is enabled (which registration itself maintains, see C9/C10),
`register_command` fails on a duplicate name with the duplicate-command
error, fails on the reserved name `"help"` while help is enabled with the
reserved-name error, and otherwise inserts the command and succeeds. -/
theorem c3_register_command_cases {D : Type} (g : Game D) (name : String)
    (cmd : Command D)
    (hinv : g.config.show_help = true → g.commands.lookup "help" = none) :
    ((g.commands.lookup name).isSome = true →
      g.register_command name cmd =
        .error (.duplicateCommand
          ("Command with name \"" ++ name ++ "\" already registered.")))
    ∧ (g.config.show_help = true → name = "help" →
      g.register_command name cmd =
        .error (.reservedName
          "Cannot register a command named \"help\" when show_help is True."))
    ∧ ((g.commands.lookup name).isSome = false →
      ¬(g.config.show_help = true ∧ name = "help") →
      g.register_command name cmd =
        .ok { g with commands := g.commands ++ [(name, cmd)] }) := by
  refine ⟨?_, ?_, ?_⟩
  · intro hdup
    have hres : (g.config.show_help && name == "help") = false := by
      rcases hsh : g.config.show_help with _ | _
      · simp
      · rcases hne : name == "help" with _ | _
        · simp
        · exfalso
          rw [(eq_of_beq hne : name = "help"), hinv hsh] at hdup
          simp at hdup
    simp only [Game.register_command, hres, Bool.false_eq_true, if_false, hdup, if_true]
  · intro hsh hn
    have hres : (g.config.show_help && name == "help") = true := by
      simp [hsh, hn]
    simp only [Game.register_command, hres, if_true]
  · intro hdup hnres
    have hres : (g.config.show_help && name == "help") = false := by
      rcases hsh : g.config.show_help with _ | _
      · simp
      · rcases hne : name == "help" with _ | _
        · simp
        · exact absurd ⟨hsh, eq_of_beq hne⟩ hnres
    simp only [Game.register_command, hres, Bool.false_eq_true, if_false, hdup]

/-- Witness for **C3** at closed inputs: a duplicate `add`, the reserved
`help`, and a fresh successful registration. -/
theorem c3_witness :
    gA.register_command "add" cmdA =
      .error (.duplicateCommand "Command with name \"add\" already registered.") ∧
    gA.register_command "help" cmdA =
      .error (.reservedName
        "Cannot register a command named \"help\" when show_help is True.") ∧
    g0.register_command "add" cmdA = .ok gA :=
  ⟨(c3_register_command_cases gA "add" cmdA fun _ => rfl).1 rfl,
   (c3_register_command_cases gA "help" cmdA fun _ => rfl).2.1 rfl rfl,
   (c3_register_command_cases g0 "add" cmdA fun _ => rfl).2.2 rfl (by decide)⟩

/-- **C6.**  A `Command` whose action slot is unbound executes as a no-op:
for every state and parameter record, `execute` returns and the shared state
is exactly what it was. -/
theorem c6_execute_unbound_noop {D : Type} (schema : Schema)
    (prs : RegexCommandParser) (data : D) (params : List (String × PyVal)) :
    Command.execute { schema := schema, parser := prs, action := none } data params
      = data := rfl

/-- **C10.**  A rejected registration is atomic: whenever the registration
attempt reports an error, the observable post-state is the untouched
receiver — in particular its command registry is exactly what it was before
the call. -/
theorem c10_register_atomic {D : Type} (g : Game D) (name : String)
    (cmd : Command D) (e : RegisterError)
    (he : (g.try_register name cmd).2 = some e) :
    (g.try_register name cmd).1 = g ∧
    (g.try_register name cmd).1.commands = g.commands := by
  cases hr : g.register_command name cmd with
  | ok g2 =>
    exfalso
    unfold Game.try_register at he
    rw [hr] at he
    exact Option.noConfusion he
  | error e2 =>
    unfold Game.try_register
    rw [hr]
    exact ⟨rfl, rfl⟩

/-- Witness for **C10**: the rejected duplicate registration of `add` leaves
`gA` untouched. -/
theorem c10_witness :
    (gA.try_register "add" cmdA).1 = gA ∧
    (gA.try_register "add" cmdA).1.commands = gA.commands :=
  c10_register_atomic gA "add" cmdA
    (.duplicateCommand "Command with name \"add\" already registered.") rfl

/-- **C4.**  For one successfully parsed command with before-hook `B`,
bound action `A` and after-hook `H`, one iteration of the input loop runs
exactly `B`, then the action, then `H`, each once and in that order: the
event trace is `[preHook, actionRun, postHook]` and the resulting state is
the strictly sequential composition `H (A.run (B data) params)` — each stage
receives the completed result of the previous one. -/
theorem c4_hook_ordering {D : Type} (g : Game D) (data : D) (line : String)
    (tok rem : String) (cmd : Command D) (B H : D → D) (A : ActionFn D)
    (params : List (String × PyVal))
    (hsplit : splitMax1 line = [tok, rem])
    (hnh : (tok == "help" && g.config.show_help) = false)
    (hcmd : g.commands.lookup tok = some cmd)
    (hact : cmd.action = some A)
    (hpre : g.tasks.pre_command = some B)
    (hpost : g.tasks.post_command = some H)
    (hparse : cmd.parse rem = .ok params) :
    g.user_loop_iter data line =
      (H (A.run (B data) params), [.preHook, .actionRun, .postHook]) := by
  simp only [Game.user_loop_iter, hsplit, hnh, Bool.false_eq_true, if_false, hcmd,
    List.headD_cons, hparse, hpre, hpost, Command.execute, hact, Option.isSome_some,
    if_true, List.nil_append, List.cons_append]

/-- Witness for **C4**: in the concrete game `gAH` (pre-hook `+100`,
post-hook `*10`, `add` action `+value`), the line `"add 5"` from state `0`
ends in `(0 + 100 + 5) * 10 = 1050` with the three events in order. -/
theorem c4_witness :
    gAH.user_loop_iter 0 "add 5" = (1050, [.preHook, .actionRun, .postHook]) :=
  c4_hook_ordering gAH 0 "add 5" "add" "5" cmdA (fun d => d + 100) (fun d => d * 10)
    actA [("value", .vint 5)] rfl rfl rfl rfl rfl rfl rfl

/-- **C5.**  When `Command.parse` raises `CommandParseError` for a line
naming a registered command, the iteration only emits the error's message:
no hook event and no action event occur, the state is returned unchanged,
and the run continues — the loop processes the remaining input lines exactly
as it would have without the failing line. -/
theorem c5_parse_error_nonfatal {D : Type} (g : Game D) (data : D)
    (line : String) (tok : String) (rest : List String) (cmd : Command D)
    (e : CommandParseError) (lines : List String)
    (hsplit : splitMax1 line = tok :: rest)
    (hnh : (tok == "help" && g.config.show_help) = false)
    (hcmd : g.commands.lookup tok = some cmd)
    (hparse : cmd.parse (rest.headD "") = .error e) :
    g.user_loop_iter data line = (data, [.printed e.message]) ∧
    g.user_loop data (line :: lines) =
      ((g.user_loop data lines).1, .printed e.message :: (g.user_loop data lines).2) := by
  have hiter : g.user_loop_iter data line = (data, [.printed e.message]) := by
    simp only [Game.user_loop_iter, hsplit, hnh, Bool.false_eq_true, if_false, hcmd,
      hparse]
  refine ⟨hiter, ?_⟩
  simp only [Game.user_loop, hiter, List.singleton_append]

/-- Witness for **C5**: in `gAH`, the line `"add abc"` (the pattern requires
digits) prints the pattern-bearing message, leaves the counter at `0`, and
the following `"add 5"` still executes normally. -/
theorem c5_witness :
    gAH.user_loop_iter 0 "add abc" =
      (0, [.printed "Command does not match pattern: (?P<value>[\\d-]+)"]) ∧
    gAH.user_loop 0 ["add abc", "add 5"] =
      (1050, [.printed "Command does not match pattern: (?P<value>[\\d-]+)",
        .preHook, .actionRun, .postHook]) :=
  c5_parse_error_nonfatal gAH 0 "add abc" "add" ["abc"] cmdA
    ⟨"Command does not match pattern: (?P<value>[\\d-]+)", none⟩ ["add 5"]
    rfl rfl rfl rfl

/-- **C9.**  With help enabled and the reserved name never present in the
registry, the line `"help help"` prints `Command "help" not found.` — the
help facility itself is not a registry entry; and registration keeps the
reserved name out of the registry, so the invariant holds along every run.
Help with an argument succeeds only for registered names. -/
theorem c9_help_help_not_found {D : Type} (g : Game D) (data : D)
    (hsh : g.config.show_help = true)
    (hinv : g.commands.lookup "help" = none) :
    g.user_loop_iter data "help help" =
      (data, [.printed "Command \"help\" not found."]) ∧
    (∀ (name : String) (cmd : Command D) (g2 : Game D),
      g.register_command name cmd = .ok g2 → g2.commands.lookup "help" = none) := by
  constructor
  · have hsplit : splitMax1 "help help" = ["help", "help"] := rfl
    simp only [Game.user_loop_iter, hsplit, hsh, Bool.and_true, beq_self_eq_true,
      if_true, hinv]
    rfl
  · intro name cmd g2 hr
    unfold Game.register_command at hr
    by_cases hres : (g.config.show_help && name == "help") = true
    · rw [if_pos hres] at hr
      exact absurd hr (by simp)
    · rw [if_neg hres] at hr
      by_cases hdup : (g.commands.lookup name).isSome = true
      · rw [if_pos hdup] at hr
        exact absurd hr (by simp)
      · rw [if_neg hdup] at hr
        simp only [Except.ok.injEq] at hr
        subst hr
        have hne : ¬("help" == name) = true := by
          intro hc
          rw [hsh] at hres
          simp only [Bool.true_and] at hres
          exact hres (by rw [(eq_of_beq hc : "help" = name)]; exact beq_self_eq_true name)
        show (g.commands ++ [(name, cmd)]).lookup "help" = none
        rw [lookup_append, hinv]
        simp only [Option.orElse, List.lookup, hne]

/-- Witness for **C9**: in `gA` (which registers only `add`), `"help help"`
prints the not-found message. -/
theorem c9_witness :
    gA.user_loop_iter 0 "help help" =
      (0, [.printed "Command \"help\" not found."]) :=
  (c9_help_help_not_found gA 0 rfl rfl).1

/-- **C7 (amended).**  After a successful match, a declared singular field is
absent from the raw-string map only when the pattern defines no group with
its name; a field whose group is defined but did not participate in the
match is still present — bound to Python `None` — so it is passed to
validation instead of being left to the schema default. -/
theorem c7_nonparticipating_group (p : RegexCommandParser) (schema : Schema)
    (line : String) (m : RMatch) (name : String) (fld : FieldInfo)
    (_hm : p.cpattern.fullmatch line = some m)
    (hmem : (name, fld) ∈ schema.model_fields) :
    (name ∉ p.cpattern.groupNames →
      (rawParams p.cpattern m schema).lookup name = none)
    ∧ (name ∈ p.cpattern.groupNames → type_is_list fld.annot = false →
      m.group name = none →
      (name, RawVal.pynone) ∈ rawParams p.cpattern m schema) := by
  constructor
  · intro hng
    exact rawParams_lookup_none p.cpattern m schema name hng
  · intro hg hnl hnp
    have := rawParams_mem p.cpattern m schema name fld hmem hg
    rw [rawOf, hnl] at this
    simp only [Bool.false_eq_true, if_false, hnp] at this
    exact this

/-- Counterexample for **C7** as stated: for the pattern
`(?P<a>\d+)(?: (?P<b>\w+))?` and the line `"5"`, the optional group `b` does
not participate, yet `b` is *present* in the raw-string map (bound to
Python `None`, because `match.groupdict()` lists every named group of the
pattern), and validation therefore fails on `b` instead of applying the
schema default `"dflt"`. -/
theorem c7_counterexample :
    (Regex.fullmatch p7 "5").map (fun m => rawParams p7 m schema7) =
      some [("a", RawVal.str "5"), ("b", RawVal.pynone)] ∧
    parser7.parse schema7 "5" =
      .error ⟨"Parameters failed to validate.",
        some ⟨"b", "Input should be a valid string"⟩⟩ :=
  ⟨rfl, rfl⟩

/-- Witness for **C7 (amended)** at closed inputs: in the `add` pattern the
name `"other"` is defined by no group, and in `p7` the defined group `"b"`
does not participate on input `"5"`. -/
theorem c7_witness :
    (rawParams pA ⟨[("value", "5")]⟩
      { model_fields := [("other", { annot := .pstr })] }).lookup "other" = none ∧
    ("b", RawVal.pynone) ∈ rawParams p7 ⟨[("a", "5")]⟩ schema7 :=
  ⟨(c7_nonparticipating_group parserA
      { model_fields := [("other", { annot := .pstr })] } "5" ⟨[("value", "5")]⟩
      "other" { annot := .pstr } rfl (List.mem_singleton.mpr rfl)).1 (by decide),
   (c7_nonparticipating_group parser7 schema7 "5" ⟨[("a", "5")]⟩
      "b" { annot := .pstr, dflt := some (.vstr "dflt") } rfl
      (by simp [schema7])).2 (by decide) rfl rfl⟩

/-- **C8 (amended).**  `help_message` is the action description head
followed by the fixed tail (`Usage:` with the parser help indented four
spaces, then `Parameters:` with each field's name and description or the
placeholder).  The head is the placeholder `"No description available."`
only when *no action is bound*; a bound action without a docstring yields
the literal text `"None"` (the f-string rendering of `__doc__ is None`),
and a bound documented action yields its docstring. -/
theorem c8_help_message_format {D : Type} (c : Command D) :
    (c.action = none →
      c.help_message = "No description available." ++ helpTail c)
    ∧ (∀ a, c.action = some a → a.doc = none →
      c.help_message = "None" ++ helpTail c)
    ∧ (∀ a d, c.action = some a → a.doc = some d →
      c.help_message = d ++ helpTail c) := by
  refine ⟨?_, ?_, ?_⟩
  · intro h
    simp only [Command.help_message, helpTail, h, List.map_map, Function.comp_def,
      String.append_assoc]
  · intro a h hd
    simp only [Command.help_message, helpTail, h, hd, List.map_map, Function.comp_def,
      String.append_assoc]
  · intro a d h hd
    simp only [Command.help_message, helpTail, h, hd, List.map_map, Function.comp_def,
      String.append_assoc]

/-- Counterexample for **C8** as stated: `cmdNoDocA` has a bound action and
no description anywhere, yet its help message starts with the literal text
`"None"`, not with the placeholder the claim requires whenever no
description exists. -/
theorem c8_counterexample :
    cmdNoDocA.action.isSome = true ∧
    cmdNoDocA.action.map ActionFn.doc = some none ∧
    cmdNoDocA.help_message =
      "None\n\nUsage:\n    Pattern: (?P<value>[\\d-]+)\n\nParameters:\n    value: The value to add to the counter." ∧
    cmdNoDocA.help_message ≠
      "No description available.\n\nUsage:\n    Pattern: (?P<value>[\\d-]+)\n\nParameters:\n    value: The value to add to the counter." :=
  ⟨rfl, rfl, rfl, by decide⟩

/-- Witness for **C8 (amended)** at closed inputs: the undocumented-action
command renders the `"None"` head and the documented `add` command renders
its docstring head. -/
theorem c8_witness :
    cmdNoDocA.help_message = "None" ++ helpTail cmdNoDocA ∧
    cmdA.help_message = "Adds the value to the counter." ++ helpTail cmdA :=
  ⟨(c8_help_message_format cmdNoDocA).2.1 { run := fun d _ => d } rfl rfl,
   (c8_help_message_format cmdA).2.2 actA "Adds the value to the counter." rfl rfl⟩
